import Mathlib

/-!
Shallow embedding of the `xcono/views` discovery-driven query validation and
execution layer (src/lib/views/query.ts, validator.ts, source.ts and the
schema-discovery module), together with theorems checking the repository's
natural-language specification against the code.

Modelling conventions:
* JavaScript strings are Lean `String`s; substring/prefix tests are spelled
  out on `List Char` so that they compute by kernel reduction.
* JavaScript numbers appearing as limits/offsets are modelled as `Int`
  (the claims under study only involve integral values; `Math.floor` is the
  identity and `isFinite` is always true on this fragment).
* Runtime JavaScript values flowing through `FilterSpec.value` are modelled
  by the inductive `JsValue` carrying exactly the observations the code
  makes (`typeof`, `isFinite`, `Array.isArray`, `instanceof Date`, the UUID
  regular expression).
* Asynchronous backend calls (the Supabase client) are modelled as explicit
  function parameters; "no backend call is made" becomes "the result does
  not depend on those parameters".
* The in-memory `Map` underlying `DiscoveryCache` is modelled as an
  insertion-ordered association list, matching JavaScript `Map` semantics
  (set of an existing key updates in place, otherwise appends; `keys().next()`
  is the first, i.e. oldest-inserted, key).
* `details` payloads of errors are not modelled: no claim depends on them.
-/

set_option maxRecDepth 10000

namespace Views

/-! ## JavaScript string primitives -/

/-- `charListStarts s pat` : `pat` is a prefix of `s` (character-wise). -/
def charListStarts : List Char → List Char → Bool
  | _, [] => true
  | [], _ :: _ => false
  | c :: s, p :: ps => c == p && charListStarts s ps

/-- `charListHas s pat` : `pat` occurs as a contiguous substring of `s`.
Models JavaScript `String.prototype.includes`. -/
def charListHas : List Char → List Char → Bool
  | [], pat => pat.isEmpty
  | c :: s, pat => charListStarts (c :: s) pat || charListHas s pat

/-- JavaScript `s.includes(pat)`. -/
def strHas (s pat : String) : Bool := charListHas s.data pat.data

/-- JavaScript `s.startsWith(pat)`. -/
def strStarts (s pat : String) : Bool := charListStarts s.data pat.data

/-- JavaScript `s.toLowerCase()` on the ASCII fragment the code deals in
(column type names, SQL keywords). Character-level so the kernel computes. -/
def strLower (s : String) : String := ⟨s.data.map Char.toLower⟩

/-- JavaScript `s.toUpperCase()` on the same ASCII fragment. -/
def strUpper (s : String) : String := ⟨s.data.map Char.toUpper⟩

/-- The whitespace JavaScript `trim` strips on this fragment. -/
def isWsChar (c : Char) : Bool := c == ' ' || c == '\t' || c == '\n' || c == '\r'

/-- JavaScript `s.trim()`. -/
def strTrim (s : String) : String :=
  ⟨((s.data.dropWhile isWsChar).reverse.dropWhile isWsChar).reverse⟩

/-- Split a character list at every occurrence of `sep` (for the UUID
group test). -/
def splitChar (sep : Char) : List Char → List (List Char)
  | [] => [[]]
  | c :: rest =>
    let r := splitChar sep rest
    if c == sep then [] :: r
    else match r with
      | [] => [[c]]
      | g :: gs => (c :: g) :: gs

/-! ## Error taxonomy (validator.ts / discovery module) -/

/-- The shared error taxonomy: `"config" | "permission" | "transport" | "server"`. -/
inductive ErrType
  | config
  | permission
  | transport
  | server
deriving DecidableEq

/-- The taxonomy tag as the string the TypeScript code carries. -/
def ErrType.tag : ErrType → String
  | .config => "config"
  | .permission => "permission"
  | .transport => "transport"
  | .server => "server"

/-- `ValidationError` from validator.ts: `{ type, message, details? }`.
The source field is named `type`; the `details` record is not modelled. -/
structure ValidationError where
  etype : ErrType
  message : String
deriving DecidableEq

/-- `DiscoveryError` has the same shape as `ValidationError`. -/
abbrev DiscoveryError := ValidationError

/-- `DiscoveryResult<T>` / `ValidationResult<T>`: success-with-data or
failure-with-error (both source types have this identical shape). -/
inductive DiscoveryResult (α : Type)
  | success (data : α)
  | failure (error : ValidationError)
deriving DecidableEq

abbrev ValidationResult := DiscoveryResult

/-! ## Query model (query.ts) -/

def QUERY_DEFAULT_LIMIT : Int := 50
def QUERY_MAX_LIMIT : Int := 500
def QUERY_PREVIEW_LIMIT : Int := 20

inductive QueryExecutionMode
  | normal
  | preview
deriving DecidableEq

/-- The string a mode interpolates to in messages. -/
def QueryExecutionMode.name : QueryExecutionMode → String
  | .normal => "normal"
  | .preview => "preview"

/-- PostgREST filter operators (`FilterOperator` in query.ts). The source
operator `in` is a Lean keyword, hence the guillemets. -/
inductive FilterOperator
  | eq | neq | gt | gte | lt | lte
  | like | ilike | is | «in» | cs | cd
  | sl | sr | nxl | nxr | adj | ov
  | fts | plfts | phfts | wfts
deriving DecidableEq

/-- The string an operator interpolates to in messages. -/
def FilterOperator.name : FilterOperator → String
  | .eq => "eq" | .neq => "neq" | .gt => "gt" | .gte => "gte"
  | .lt => "lt" | .lte => "lte" | .like => "like" | .ilike => "ilike"
  | .is => "is" | .«in» => "in" | .cs => "cs" | .cd => "cd"
  | .sl => "sl" | .sr => "sr" | .nxl => "nxl" | .nxr => "nxr"
  | .adj => "adj" | .ov => "ov" | .fts => "fts" | .plfts => "plfts"
  | .phfts => "phfts" | .wfts => "wfts"

/-- A runtime JavaScript value as observed by the validator: the model keeps
exactly the distinctions the code tests (`typeof`, finiteness of numbers,
`Array.isArray`, `instanceof Date`, string contents). -/
inductive JsValue
  | vstr (s : String)
  | vnum (n : Int) (finite : Bool)
  | vbool (b : Bool)
  | vdate
  | varr
  | vobj
  | vnull
  | vundef
deriving DecidableEq

/-- JavaScript `typeof`. Note `typeof null === "object"` and
`typeof (new Date()) === "object"`. -/
def JsValue.typeofStr : JsValue → String
  | .vstr _ => "string"
  | .vnum _ _ => "number"
  | .vbool _ => "boolean"
  | .vdate => "object"
  | .varr => "object"
  | .vobj => "object"
  | .vnull => "object"
  | .vundef => "undefined"

def JsValue.isFiniteNum : JsValue → Bool
  | .vnum _ finite => finite
  | _ => false

def JsValue.isArrayV : JsValue → Bool
  | .varr => true
  | _ => false

def JsValue.isDateV : JsValue → Bool
  | .vdate => true
  | _ => false

structure FilterSpec where
  column : String
  operator : FilterOperator
  value : JsValue
deriving DecidableEq

inductive NullsPlacement
  | first
  | last
deriving DecidableEq

structure OrderBySpec where
  column : String
  ascending : Option Bool
  nulls : Option NullsPlacement
deriving DecidableEq

/-- `RestQueryConfig` (query.ts). `select` is alias-first: an
insertion-ordered alias → expression mapping (`Object.entries` order). -/
structure RestQueryConfig where
  «from» : String
  select : List (String × String)
  filters : Option (List FilterSpec)
  orderBy : Option (List OrderBySpec)
  limit : Option Int
  offset : Option Int
deriving DecidableEq

structure SqlQueryConfig where
  rawSql : String
  params : List JsValue
  limit : Option Int
  offset : Option Int
deriving DecidableEq

/-- `clampLimit` (query.ts). On the `Int` fragment `Math.floor` is the
identity and `isFinite` holds, so `some n` is a finite number and `none`
is `undefined`. -/
def clampLimit (requestedLimit : Option Int) (mode : QueryExecutionMode) : Int :=
  let maxL := match mode with
    | .preview => QUERY_PREVIEW_LIMIT
    | .normal => QUERY_MAX_LIMIT
  let fallback := match mode with
    | .preview => QUERY_PREVIEW_LIMIT
    | .normal => QUERY_DEFAULT_LIMIT
  let n := match requestedLimit with
    | some v => v
    | none => fallback
  if n < 1 then 1 else if n > maxL then maxL else n

/-- `clampOffset` (query.ts) on the same `Int` fragment. -/
def clampOffset (requestedOffset : Option Int) : Int :=
  let n := match requestedOffset with
    | some v => v
    | none => 0
  if n < 0 then 0 else n

/-! ## Discovered metadata (discovery module) -/

structure ColumnMetadata where
  column_name : String
  data_type : String
  is_nullable : Bool
  column_default : Option String
  character_maximum_length : Option Int
  numeric_precision : Option Int
  numeric_scale : Option Int
deriving DecidableEq

structure ConstraintMetadata where
  constraint_name : String
  constraint_type : String
  column_name : String
  foreign_table_name : Option String
  foreign_column_name : Option String
deriving DecidableEq

structure IndexMetadata where
  index_name : String
  index_definition : String
  is_unique : Bool
  column_names : List String
deriving DecidableEq

structure PolicyMetadata where
  policy_name : String
  permissive : Bool
  roles : List String
  cmd : String
  qual : Option String
  with_check : Option String
deriving DecidableEq

inductive TableType
  | baseTable
  | view
deriving DecidableEq

structure TableMetadata where
  table_name : String
  table_type : TableType
  columns : List ColumnMetadata
  constraints : List ConstraintMetadata
  indexes : List IndexMetadata
  policies : List PolicyMetadata
  has_rls_enabled : Bool
deriving DecidableEq

/-! ## Type-compatibility engine (validator.ts) -/

inductive ColumnTypeFamily
  | text
  | numeric
  | boolean
  | temporal
  | json
  | uuid
  | array
  | unknown
deriving DecidableEq

/-- `OPERATOR_COMPATIBILITY` (validator.ts lines 64-98), transcribed row by
row from the source table. -/
def OPERATOR_COMPATIBILITY : FilterOperator → List ColumnTypeFamily
  | .eq => [.text, .numeric, .boolean, .temporal, .uuid, .json]
  | .neq => [.text, .numeric, .boolean, .temporal, .uuid, .json]
  | .is => [.text, .numeric, .boolean, .temporal, .uuid, .json]
  | .gt => [.numeric, .temporal]
  | .gte => [.numeric, .temporal]
  | .lt => [.numeric, .temporal]
  | .lte => [.numeric, .temporal]
  | .like => [.text]
  | .ilike => [.text]
  | .«in» => [.text, .numeric, .boolean, .temporal, .uuid]
  | .cs => [.array, .json]
  | .cd => [.array, .json]
  | .sl => [.numeric, .temporal]
  | .sr => [.numeric, .temporal]
  | .nxl => [.numeric, .temporal]
  | .nxr => [.numeric, .temporal]
  | .adj => [.numeric, .temporal]
  | .ov => [.numeric, .temporal]
  | .fts => [.text]
  | .plfts => [.text]
  | .phfts => [.text]
  | .wfts => [.text]

/-- `getColumnTypeFamily` (validator.ts): lower-case the raw type and match
substrings in the source's fixed priority order; no match gives `unknown`. -/
def getColumnTypeFamily (dataType : String) : ColumnTypeFamily :=
  let t := strLower dataType
  if strHas t "text" || strHas t "varchar" || strHas t "char" then .text
  else if strHas t "int" || strHas t "numeric" || strHas t "decimal" ||
      strHas t "float" || strHas t "double" || strHas t "real" then .numeric
  else if strHas t "bool" then .boolean
  else if strHas t "timestamp" || strHas t "date" || strHas t "time" then .temporal
  else if strHas t "uuid" then .uuid
  else if strHas t "json" then .json
  else if strHas t "array" || strHas t "[]" then .array
  else .unknown

/-- `isOperatorCompatibleWithType` (validator.ts lines 148-155). -/
def isOperatorCompatibleWithType (operator : FilterOperator) (columnType : String) : Bool :=
  let typeFamily := getColumnTypeFamily columnType
  let compatibleTypes := OPERATOR_COMPATIBILITY operator
  compatibleTypes.contains typeFamily

/-- Hexadecimal digit (either case), as accepted by the UUID expression. -/
def isHexDigit (c : Char) : Bool :=
  ('0' ≤ c && c ≤ '9') || ('a' ≤ c && c ≤ 'f') || ('A' ≤ c && c ≤ 'F')

/-- The `8-4-4-4-12` case-insensitive hex UUID test from
`isValueCompatibleWithType`. -/
def uuidShape (s : String) : Bool :=
  match splitChar '-' s.data with
  | [a, b, c, d, e] =>
    a.length == 8 && b.length == 4 && c.length == 4 && d.length == 4 &&
      e.length == 12 && (a ++ b ++ c ++ d ++ e).all isHexDigit
  | _ => false

/-- `isValueCompatibleWithType` (validator.ts lines 160-181). The `default`
branch (family `unknown`) allows every value. -/
def isValueCompatibleWithType (value : JsValue) (columnType : String) : Bool :=
  match getColumnTypeFamily columnType with
  | .text => value.typeofStr == "string"
  | .numeric => value.typeofStr == "number" && value.isFiniteNum
  | .boolean => value.typeofStr == "boolean"
  | .temporal => value.isDateV || value.typeofStr == "string"
  | .uuid =>
    match value with
    | .vstr s => uuidShape s
    | _ => false
  | .json => value.typeofStr == "object" || value.typeofStr == "string"
  | .array => value.isArrayV
  | .unknown => true

/-! ## Check groups (validator.ts) -/

/-- Per-entry part of `validateAliasFirstSelect`: each alias/expression pair
contributes errors independently (`continue` after the first problem of an
entry). -/
def selectEntryErrors (columnNames : List String) (aliasName expr : String) :
    List ValidationError :=
  if aliasName = "" || strTrim aliasName = "" then
    [⟨.config, "Invalid alias name: \"" ++ aliasName ++ "\""⟩]
  else if expr = "" || strTrim expr = "" then
    [⟨.config, "Invalid expression for alias \"" ++ aliasName ++ "\": \"" ++ expr ++ "\""⟩]
  else if !strHas expr "." && !strHas expr "(" && !columnNames.contains expr then
    [⟨.config, "Column \"" ++ expr ++ "\" does not exist in table"⟩]
  else
    []

/-- `validateAliasFirstSelect` (validator.ts lines 186-238). -/
def validateAliasFirstSelect (select : List (String × String))
    (columns : List ColumnMetadata) : List ValidationError :=
  let columnNames := columns.map ColumnMetadata.column_name
  if select.isEmpty then
    [⟨.config, "Select configuration cannot be empty"⟩]
  else
    select.flatMap fun p => selectEntryErrors columnNames p.1 p.2

/-- Lookup in the `Map` `validateFilters` builds from the column list: a
JavaScript `Map` constructed from pairs keeps the *last* entry for a
duplicated key, which the fold below reproduces. -/
def columnMapGet (columns : List ColumnMetadata) (name : String) :
    Option ColumnMetadata :=
  columns.foldl (fun acc col => if col.column_name = name then some col else acc) none

/-- The operator-incompatibility error pushed by `validateFilters`. -/
def opIncompatError (operator : FilterOperator) (dataType : String) : ValidationError :=
  ⟨.config, "Operator \"" ++ operator.name ++ "\" is not compatible with column type \""
      ++ dataType ++ "\""⟩

/-- The value-incompatibility error pushed by `validateFilters`. -/
def valueIncompatError (dataType : String) : ValidationError :=
  ⟨.config, "Filter value is not compatible with column type \"" ++ dataType ++ "\""⟩

/-- Per-filter part of `validateFilters` (validator.ts lines 250-291). -/
def filterErrors (columns : List ColumnMetadata) (filter : FilterSpec) :
    List ValidationError :=
  match columnMapGet columns filter.column with
  | none => [⟨.config, "Filter column \"" ++ filter.column ++ "\" does not exist"⟩]
  | some column =>
    (if !isOperatorCompatibleWithType filter.operator column.data_type then
      [opIncompatError filter.operator column.data_type]
    else []) ++
    (if filter.operator ≠ FilterOperator.is &&
        !isValueCompatibleWithType filter.value column.data_type then
      [valueIncompatError column.data_type]
    else [])

/-- `validateFilters` (validator.ts lines 243-294): the per-filter errors in
filter order. -/
def validateFilters : List FilterSpec → List ColumnMetadata → List ValidationError
  | [], _ => []
  | f :: fs, columns => filterErrors columns f ++ validateFilters fs columns

/-- `validateOrderBy` (validator.ts lines 299-320). -/
def validateOrderBy (orderBy : List OrderBySpec) (columns : List ColumnMetadata) :
    List ValidationError :=
  let columnNames := columns.map ColumnMetadata.column_name
  orderBy.flatMap fun order =>
    if columnNames.contains order.column then []
    else [⟨.config, "Order by column \"" ++ order.column ++ "\" does not exist"⟩]

/-- The mode-dependent cap used by `validatePagination`. -/
def modeMaxLimit (mode : QueryExecutionMode) : Int :=
  match mode with
  | .preview => QUERY_PREVIEW_LIMIT
  | .normal => QUERY_MAX_LIMIT

/-- The limit-exceeds-cap error of `validatePagination`. -/
def limitExceedsError (l : Int) (mode : QueryExecutionMode) : ValidationError :=
  ⟨.config, "Limit " ++ toString l ++ " exceeds maximum allowed "
      ++ toString (modeMaxLimit mode) ++ " for " ++ mode.name ++ " mode"⟩

/-- `validatePagination` (validator.ts lines 325-368), applied to the
`limit`/`offset` fields of either config kind. -/
def validatePagination (limit offset : Option Int) (mode : QueryExecutionMode) :
    List ValidationError :=
  (match limit with
   | some l =>
     (if l > modeMaxLimit mode then [limitExceedsError l mode] else []) ++
     (if l < 1 then [⟨.config, "Limit must be at least 1"⟩] else [])
   | none => []) ++
  (match offset with
   | some o => if o < 0 then [⟨.config, "Offset must be non-negative"⟩] else []
   | none => [])

/-- The forbidden-keyword error of `validateSqlQuery`. -/
def forbiddenKeywordError (keyword : String) : ValidationError :=
  ⟨.config, "SQL query contains forbidden keyword: \"" ++ keyword ++ "\""⟩

def dangerousKeywords : List String :=
  ["insert", "update", "delete", "drop", "create", "alter", "truncate"]

/-- `validateSqlQuery` (validator.ts lines 373-405). -/
def validateSqlQuery (config : SqlQueryConfig) (mode : QueryExecutionMode) :
    List ValidationError :=
  let sql := strLower (strTrim config.rawSql)
  (if !strStarts sql "select" then [⟨.config, "SQL queries must be SELECT-only"⟩]
   else []) ++
  (dangerousKeywords.flatMap fun keyword =>
    if strHas sql keyword then [forbiddenKeywordError keyword] else []) ++
  validatePagination config.limit config.offset mode

/-! ## validateQueryConfig (validator.ts lines 410-542) -/

/-- `PreflightContext`: `{mode, schemaName?}`. -/
structure PreflightContext where
  mode : QueryExecutionMode
  schemaName : Option String

/-- The `{} as TableMetadata` empty marker returned for raw queries is a
field-less object cast to `TableMetadata`; it is modelled as a distinguished
value alongside real metadata. -/
inductive ValidatedMeta
  | empty
  | meta (m : TableMetadata)
deriving DecidableEq

/-- The metadata-discovery oracle seen by the validator: the asynchronous
`discoverTableMetadata(config.from, context.schemaName)` call abstracted as
a function of its two arguments. -/
abbrev Discover := String → Option String → DiscoveryResult TableMetadata

/-- A value arriving at `validateQueryConfig`'s public boundary. The
TypeScript signature says `QueryConfig`, but at runtime JavaScript can hand
the function anything, which the code guards against:
* `notObject` — `null`, `undefined` or a primitive (`typeof` not "object");
* `badKind` — an object whose `kind` is missing/falsy or neither
  `"rest"` nor `"sql"`;
* `sqlMissingRaw` — an object tagged `"sql"` whose `rawSql` is `undefined`,
  so `config.rawSql.trim()` throws a `TypeError` inside the `try` block;
* `rest` / `sql` — well-formed configs. -/
inductive LooseConfig
  | notObject
  | badKind (kind : Option String)
  | rest (c : RestQueryConfig)
  | sql (c : SqlQueryConfig)
  | sqlMissingRaw (limit offset : Option Int)
deriving DecidableEq

/-- The projection-check group of the rest branch. -/
def restSelectErrors (c : RestQueryConfig) (metadata : TableMetadata) :
    List ValidationError :=
  validateAliasFirstSelect c.select metadata.columns

/-- The filter-check group of the rest branch (skipped when `config.filters`
is absent). -/
def restFilterErrors (c : RestQueryConfig) (metadata : TableMetadata) :
    List ValidationError :=
  match c.filters with
  | some fs => validateFilters fs metadata.columns
  | none => []

/-- The order-by-check group of the rest branch. -/
def restOrderErrors (c : RestQueryConfig) (metadata : TableMetadata) :
    List ValidationError :=
  match c.orderBy with
  | some os => validateOrderBy os metadata.columns
  | none => []

/-- The pagination-check group of the rest branch. -/
def restPaginationErrors (c : RestQueryConfig) (mode : QueryExecutionMode) :
    List ValidationError :=
  validatePagination c.limit c.offset mode

/-- The `permission` error emitted when RLS is enabled with no policies. -/
def rlsPermissionError (tableName : String) : ValidationError :=
  ⟨.permission, "Table \"" ++ tableName ++ "\" has RLS enabled but no policies defined"⟩

/-- The policy-visibility group of the rest branch. -/
def restPolicyErrors (c : RestQueryConfig) (metadata : TableMetadata) :
    List ValidationError :=
  if metadata.has_rls_enabled && metadata.policies.isEmpty then
    [rlsPermissionError c.«from»]
  else []

/-- All errors the rest branch of `validateQueryConfig` accumulates into its
`errors` array, in push order. -/
def validateRestErrors (c : RestQueryConfig) (mode : QueryExecutionMode)
    (metadata : TableMetadata) : List ValidationError :=
  restSelectErrors c metadata ++ restFilterErrors c metadata ++
    restOrderErrors c metadata ++ restPaginationErrors c mode ++
    restPolicyErrors c metadata

/-- The body of `validateQueryConfig`'s `try` block. A thrown JavaScript
exception is an `Except.error` carrying the exception message; the only
throwing site reachable in this model is `config.rawSql.trim()` on a
`sqlMissingRaw` input. -/
def validateBody (discover : Discover) (config : LooseConfig)
    (context : PreflightContext) :
    Except String (ValidationResult ValidatedMeta) :=
  match config with
  | .notObject =>
    .ok (.failure ⟨.config, "QueryConfig must be a valid object"⟩)
  | .badKind _ =>
    .ok (.failure ⟨.config,
      "QueryConfig must have a valid kind (\x27rest\x27 or \x27sql\x27)"⟩)
  | .sqlMissingRaw _ _ =>
    .error "TypeError: Cannot read properties of undefined (reading trim)"
  | .sql c =>
    .ok (match validateSqlQuery c context.mode with
      | [] => .success .empty
      | e :: _ => .failure e)
  | .rest c =>
    .ok (match discover c.«from» context.schemaName with
      | .failure e =>
        .failure ⟨e.etype, "Failed to discover table metadata: " ++ e.message⟩
      | .success metadata =>
        match validateRestErrors c context.mode metadata with
        | [] => .success (.meta metadata)
        | e :: _ => .failure e)

/-- `validateQueryConfig` (validator.ts lines 410-542): the `try` body with
the `catch` wrapper translating any thrown exception into a `transport`
error. -/
def validateQueryConfig (discover : Discover) (config : LooseConfig)
    (context : PreflightContext) : ValidationResult ValidatedMeta :=
  match validateBody discover config context with
  | .ok r => r
  | .error _ => .failure ⟨.transport, "Unexpected error during validation"⟩

/-! ## Executors and QueryRunner (source.ts, errors.ts) -/

/-- The normalized `PostgrestError` shape `{message, details, hint, code}`. -/
structure PostgrestError where
  message : String
  details : Option String
  hint : Option String
  code : String
deriving DecidableEq

/-- `toPostgrestError` (errors.ts): `hint ?? null` and `code ?? "ERROR"`;
the details stringification is modelled as an `Option String` passthrough. -/
def toPostgrestError (message : String) (details : Option String)
    (hint : Option String) (code : Option String) : PostgrestError :=
  { message := message
    details := details
    hint := hint
    code := match code with
      | some c => c
      | none => "ERROR" }

/-- `DataSourceResult`: `{data: T[] | null, error: PostgrestError | null}`,
rows left opaque. -/
structure DataSourceResult where
  data : Option (List JsValue)
  error : Option PostgrestError
deriving DecidableEq

/-- The REST execution source abstracted as a function (SupabaseRestSource). -/
abbrev RestExec := RestQueryConfig → QueryExecutionMode → DataSourceResult

/-- The SQL execution source abstracted as a function (SupabaseSqlSource). -/
abbrev SqlExec := SqlQueryConfig → QueryExecutionMode → DataSourceResult

/-- `QueryRunner.execute` (source.ts lines 297-344): preflight validation
with `{mode}` as context, early return of the translated validation error,
otherwise dispatch to the kind-appropriate source. -/
def QueryRunner.execute (discover : Discover) (restExec : RestExec)
    (sqlExec : SqlExec) (config : LooseConfig) (mode : QueryExecutionMode) :
    DataSourceResult :=
  match validateQueryConfig discover config ⟨mode, none⟩ with
  | .failure e =>
    { data := none
      error := some (toPostgrestError e.message none (some e.etype.tag)
        (some (strUpper e.etype.tag))) }
  | .success _ =>
    match config with
    | .rest c => restExec c mode
    | .sql c => sqlExec c mode
    | _ =>
      { data := none
        error := some (toPostgrestError "Invalid query configuration" none none
          (some "CONFIG")) }

/-! ## DiscoveryCache (schema-discovery module) -/

def DISCOVERY_CACHE_TTL_MS : Nat := 5 * 60 * 1000
def DISCOVERY_CACHE_MAX_SIZE : Nat := 100

/-- A cache entry `{data, timestamp}`. -/
structure CacheEntry (α : Type) where
  data : α
  timestamp : Nat
deriving DecidableEq

/-- The `Map<string, CacheEntry>` as an insertion-ordered association list
(oldest-inserted first), matching JavaScript `Map` iteration order. -/
abbrev CacheMap (α : Type) := List (String × CacheEntry α)

/-- `Map.get`. -/
def mapLookup {β : Type} : List (String × β) → String → Option β
  | [], _ => none
  | (k', v) :: rest, k => if k' = k then some v else mapLookup rest k

/-- `Map.set`: update in place when the key is present (JavaScript keeps the
original insertion position), otherwise append at the end. -/
def mapSet {β : Type} : List (String × β) → String → β → List (String × β)
  | [], k, v => [(k, v)]
  | (k', v') :: rest, k, v =>
    if k' = k then (k, v) :: rest else (k', v') :: mapSet rest k v

/-- `Map.delete`. -/
def mapErase {β : Type} : List (String × β) → String → List (String × β)
  | [], _ => []
  | (k', v') :: rest, k => if k' = k then rest else (k', v') :: mapErase rest k

/-- `DiscoveryCache.get`: a stale entry (strictly older than the TTL) is
deleted at read time and reported absent. Returns the value (if fresh)
together with the possibly-mutated map. -/
def cacheGet {α : Type} (now : Nat) (key : String) (m : CacheMap α) :
    Option α × CacheMap α :=
  match mapLookup m key with
  | none => (none, m)
  | some entry =>
    if DISCOVERY_CACHE_TTL_MS < now - entry.timestamp then (none, mapErase m key)
    else (some entry.data, m)

/-- The eviction step of `DiscoveryCache.set`:
`const oldestKey = this.cache.keys().next().value; if (oldestKey) delete`.
On an empty map `oldestKey` is `undefined` (falsy) and when the oldest key
is the empty string it is falsy too — in both cases nothing is deleted. -/
def cacheEvict {α : Type} (m : CacheMap α) : CacheMap α :=
  match m with
  | [] => []
  | (k, e) :: rest => if k = "" then (k, e) :: rest else rest

/-- `DiscoveryCache.set`: evict when at capacity, then `Map.set`. -/
def cacheSet {α : Type} (now : Nat) (key : String) (v : α) (m : CacheMap α) :
    CacheMap α :=
  let m' := if DISCOVERY_CACHE_MAX_SIZE ≤ m.length then cacheEvict m else m
  mapSet m' key ⟨v, now⟩

/-! ## Discovery service (schema-discovery module) -/

/-- `ALLOWED_TABLE_PATTERNS`: the single pattern `^[a-zA-Z_][a-zA-Z0-9_]*$`. -/
def identStartChar (c : Char) : Bool :=
  ('a' ≤ c && c ≤ 'z') || ('A' ≤ c && c ≤ 'Z') || c == '_'

def identChar (c : Char) : Bool :=
  ('a' ≤ c && c ≤ 'z') || ('A' ≤ c && c ≤ 'Z') || ('0' ≤ c && c ≤ '9') || c == '_'

/-- `isTableAllowed` (discovery module): a falsy (empty) name is rejected;
otherwise the name must match `^[a-zA-Z_][a-zA-Z0-9_]*$`. -/
def isTableAllowed (tableName : String) : Bool :=
  match tableName.data with
  | [] => false
  | c :: rest => identStartChar c && rest.all identChar

/-- The six parallel backend sub-fetches of `discoverTableMetadata`,
abstracted as pure oracles of (tableName, schemaName). Each models one
`get...Metadata` helper, which already wraps its own failures into the
shared taxonomy. -/
structure BackendFetches where
  fetchTableType : String → String → DiscoveryResult TableType
  fetchColumns : String → String → DiscoveryResult (List ColumnMetadata)
  fetchConstraints : String → String → DiscoveryResult (List ConstraintMetadata)
  fetchIndexes : String → String → DiscoveryResult (List IndexMetadata)
  fetchPolicies : String → String → DiscoveryResult (List PolicyMetadata)
  fetchRls : String → String → DiscoveryResult Bool

/-- `discoverTableMetadata` (discovery module lines 585-669): allow-list
gate, cache lookup, six sub-fetches with first-failure reporting in declared
order, assembly and cache store. Returns the result with the updated cache. -/
def discoverTableMetadata (b : BackendFetches) (cache : CacheMap TableMetadata)
    (now : Nat) (tableName schemaName : String) :
    DiscoveryResult TableMetadata × CacheMap TableMetadata :=
  if !isTableAllowed tableName then
    (.failure ⟨.config, "Table name \x27" ++ tableName ++ "\x27 is not allowed"⟩,
      cache)
  else
    let cacheKey := "table_metadata:" ++ schemaName ++ ":" ++ tableName
    match cacheGet now cacheKey cache with
    | (some cached, cache') => (.success cached, cache')
    | (none, cache') =>
      match b.fetchTableType tableName schemaName with
      | .failure e => (.failure e, cache')
      | .success tableType =>
      match b.fetchColumns tableName schemaName with
      | .failure e => (.failure e, cache')
      | .success columns =>
      match b.fetchConstraints tableName schemaName with
      | .failure e => (.failure e, cache')
      | .success constraints =>
      match b.fetchIndexes tableName schemaName with
      | .failure e => (.failure e, cache')
      | .success indexes =>
      match b.fetchPolicies tableName schemaName with
      | .failure e => (.failure e, cache')
      | .success policies =>
      match b.fetchRls tableName schemaName with
      | .failure e => (.failure e, cache')
      | .success rls =>
        let metadata : TableMetadata :=
          { table_name := tableName
            table_type := tableType
            columns := columns
            constraints := constraints
            indexes := indexes
            policies := policies
            has_rls_enabled := rls }
        (.success metadata, cacheSet now cacheKey metadata cache')

/-! ## Auxiliary definitions for the theorems -/

/-- The keys of an association-list map, in insertion order. -/
def keysOf {β : Type} (m : List (String × β)) : List String := m.map Prod.fst

/-- Insert a list of keys (values irrelevant, timestamp 0) left to right. -/
def insertKeys (ks : List String) (m : CacheMap Unit) : CacheMap Unit :=
  ks.foldl (fun acc k => cacheSet 0 k () acc) m

/-- 101 distinct keys whose first element is the empty string. -/
def c9Keys : List String := "" :: (List.range 100).map (fun i => "k" ++ toString i)

/-- 101 distinct nonempty keys. -/
def c9KeysNE : List String := (List.range 101).map (fun i => "k" ++ toString i)

/-- Concrete discovered metadata for a table `orders` (used by witnesses). -/
def ordersColumns : List ColumnMetadata :=
  [⟨"id", "uuid", false, none, none, none, none⟩,
   ⟨"total", "numeric", true, none, none, some 10, some 2⟩,
   ⟨"created_at", "timestamp with time zone", false, none, none, none, none⟩]

def ordersMeta : TableMetadata :=
  { table_name := "orders"
    table_type := .baseTable
    columns := ordersColumns
    constraints := []
    indexes := []
    policies := []
    has_rls_enabled := false }

/-- `orders` with row security enabled and no discovered policies. -/
def ordersRlsMeta : TableMetadata := { ordersMeta with has_rls_enabled := true }

/-- A minimal well-formed structured query against `orders`. -/
def ordersQuery : RestQueryConfig :=
  { «from» := "orders"
    select := [("orderId", "id")]
    filters := none
    orderBy := none
    limit := none
    offset := none }

/-- A raw query carrying a forbidden keyword. -/
def sqlDropQuery : SqlQueryConfig :=
  { rawSql := "SELECT * FROM orders; DROP TABLE orders;"
    params := []
    limit := none
    offset := none }

/-- A discovery oracle that always succeeds with fixed metadata. -/
def constDiscover (m : TableMetadata) : Discover := fun _ _ => .success m

/-- Backend fetches that always succeed trivially. -/
def trivialFetches : BackendFetches :=
  { fetchTableType := fun _ _ => .success .baseTable
    fetchColumns := fun _ _ => .success []
    fetchConstraints := fun _ _ => .success []
    fetchIndexes := fun _ _ => .success []
    fetchPolicies := fun _ _ => .success []
    fetchRls := fun _ _ => .success false }

/-- An executor result standing for a successful backend call. -/
def noRows : DataSourceResult := ⟨some [], none⟩

/-! ## Helper lemmas on the association-list map -/

theorem mapLookup_mapSet_self {β : Type} (m : List (String × β)) (k : String) (v : β) :
    mapLookup (mapSet m k v) k = some v := by
  induction m with
  | nil => simp [mapSet, mapLookup]
  | cons p rest ih =>
    obtain ⟨k', v'⟩ := p
    by_cases h : k' = k
    · simp [mapSet, h, mapLookup]
    · simp [mapSet, h, mapLookup, ih]

theorem mapSet_of_fresh {β : Type} (m : List (String × β)) (k : String) (v : β)
    (h : k ∉ keysOf m) : mapSet m k v = m ++ [(k, v)] := by
  induction m with
  | nil => rfl
  | cons p rest ih =>
    obtain ⟨k', v'⟩ := p
    simp only [keysOf, List.map_cons, List.mem_cons] at h
    push_neg at h
    simp only [mapSet, if_neg (fun hh : k' = k => h.1 hh.symm)]
    rw [ih (by simpa [keysOf] using h.2)]
    rfl

theorem mem_mapSet {β : Type} {m : List (String × β)} {k : String} {v : β}
    {p : String × β} (h : p ∈ mapSet m k v) : p ∈ m ∨ p = (k, v) := by
  induction m with
  | nil =>
    simp only [mapSet, List.mem_singleton] at h
    exact Or.inr h
  | cons q rest ih =>
    obtain ⟨k', v'⟩ := q
    by_cases hk : k' = k
    · simp only [mapSet, if_pos hk, List.mem_cons] at h
      rcases h with h | h
      · exact Or.inr h
      · exact Or.inl (List.mem_cons_of_mem _ h)
    · simp only [mapSet, if_neg hk, List.mem_cons] at h
      rcases h with h | h
      · exact Or.inl (by simp [h])
      · rcases ih h with h' | h'
        · exact Or.inl (List.mem_cons_of_mem _ h')
        · exact Or.inr h'

theorem cacheEvict_cons {α : Type} (k : String) (e : CacheEntry α)
    (rest : CacheMap α) (h : k ≠ "") : cacheEvict ((k, e) :: rest) = rest := by
  simp [cacheEvict, h]

theorem mem_cacheEvict {α : Type} {m : CacheMap α} {p : String × CacheEntry α}
    (h : p ∈ cacheEvict m) : p ∈ m := by
  match m with
  | [] => simp [cacheEvict] at h
  | (k, e) :: rest =>
    by_cases hk : k = ""
    · simpa [cacheEvict, hk] using h
    · rw [cacheEvict_cons k e rest hk] at h
      exact List.mem_cons_of_mem _ h

/-- Substring containment of the middle part of a concatenation (character
level). -/
theorem charListStarts_nil (s : List Char) : charListStarts s [] = true := by
  cases s <;> rfl

theorem charListStarts_self_append (y z : List Char) :
    charListStarts (y ++ z) y = true := by
  induction y with
  | nil => exact charListStarts_nil z
  | cons c ys ih => simp [charListStarts, ih]

theorem charListHas_mid (x y z : List Char) :
    charListHas (x ++ y ++ z) y = true := by
  induction x with
  | nil =>
    simp only [List.nil_append]
    cases y with
    | nil => cases z <;> simp [charListHas, charListStarts_nil]
    | cons c ys =>
      have h := charListStarts_self_append (c :: ys) z
      simp only [List.cons_append] at h
      simp [charListHas, h]
  | cons a xs ih =>
    rw [List.append_assoc] at ih
    simp [charListHas, ih]

theorem keysOf_append {β : Type} (m₁ m₂ : List (String × β)) :
    keysOf (m₁ ++ m₂) = keysOf m₁ ++ keysOf m₂ := by
  simp [keysOf]

theorem strHas_mid (pre mid post : String) :
    strHas (pre ++ mid ++ post) mid = true := by
  unfold strHas
  rw [String.data_append, String.data_append]
  exact charListHas_mid pre.data mid.data post.data

/-- Size evolution of `insertKeys` over fresh, nonempty keys: growth by one
per key until the capacity is reached, then constant. -/
theorem insertKeys_length (ks : List String) : ∀ (m : CacheMap Unit),
    ks.Nodup → (∀ k ∈ ks, k ≠ "") → (∀ p ∈ m, p.1 ≠ "") →
    (∀ k ∈ ks, k ∉ keysOf m) → m.length ≤ DISCOVERY_CACHE_MAX_SIZE →
    (insertKeys ks m).length =
      if m.length + ks.length ≤ DISCOVERY_CACHE_MAX_SIZE then m.length + ks.length
      else DISCOVERY_CACHE_MAX_SIZE := by
  induction ks with
  | nil =>
    intro m _ _ _ _ hlen
    simp only [insertKeys, List.foldl_nil, List.length_nil, Nat.add_zero]
    rw [if_pos hlen]
  | cons k ks ih =>
    intro m hnd hne hmne hfresh hlen
    have hk_ne : k ≠ "" := hne k (List.mem_cons_self k ks)
    have hk_fresh : k ∉ keysOf m := hfresh k (List.mem_cons_self k ks)
    have hnd' : ks.Nodup := (List.nodup_cons.mp hnd).2
    have hk_notin : k ∉ ks := (List.nodup_cons.mp hnd).1
    have hne' : ∀ k' ∈ ks, k' ≠ "" := fun k' h => hne k' (List.mem_cons_of_mem _ h)
    have hstep : insertKeys (k :: ks) m = insertKeys ks (cacheSet 0 k () m) := rfl
    by_cases hcap : DISCOVERY_CACHE_MAX_SIZE ≤ m.length
    · have h100 : m.length = DISCOVERY_CACHE_MAX_SIZE := Nat.le_antisymm hlen hcap
      obtain ⟨p, rest, rfl⟩ : ∃ p rest, m = p :: rest := by
        cases m with
        | nil => simp [DISCOVERY_CACHE_MAX_SIZE] at h100
        | cons p rest => exact ⟨p, rest, rfl⟩
      obtain ⟨kp, ep⟩ := p
      have hkp : kp ≠ "" := hmne (kp, ep) (List.mem_cons_self _ _)
      have hk_fresh_rest : k ∉ keysOf rest := by
        intro hc
        exact hk_fresh (by simp [keysOf] at hc ⊢; exact Or.inr hc)
      have hm'_eq : cacheSet 0 k () ((kp, ep) :: rest)
          = rest ++ [(k, ⟨(), 0⟩)] := by
        unfold cacheSet
        rw [if_pos hcap, cacheEvict_cons kp ep rest hkp]
        exact mapSet_of_fresh rest k ⟨(), 0⟩ hk_fresh_rest
      have hlen' : (cacheSet 0 k () ((kp, ep) :: rest)).length
          = DISCOVERY_CACHE_MAX_SIZE := by
        rw [hm'_eq]
        simp only [List.length_append, List.length_singleton]
        simpa using h100
      have hm'ne : ∀ q ∈ cacheSet 0 k () ((kp, ep) :: rest), q.1 ≠ "" := by
        intro q hq
        rw [hm'_eq] at hq
        rcases List.mem_append.mp hq with h | h
        · exact hmne q (List.mem_cons_of_mem _ h)
        · simp only [List.mem_singleton] at h
          rw [h]
          exact hk_ne
      have hfresh' : ∀ k' ∈ ks, k' ∉ keysOf (cacheSet 0 k () ((kp, ep) :: rest)) := by
        intro k' hk' hcon
        rw [hm'_eq, keysOf_append] at hcon
        rcases List.mem_append.mp hcon with h | h
        · exact hfresh k' (List.mem_cons_of_mem _ hk') (List.mem_cons_of_mem _ h)
        · have hkk : k' = k := by simpa [keysOf] using h
          exact hk_notin (hkk ▸ hk')
      have hres := ih (cacheSet 0 k () ((kp, ep) :: rest)) hnd' hne' hm'ne hfresh'
        (Nat.le_of_eq hlen')
      rw [hstep, hres, hlen']
      have hval : DISCOVERY_CACHE_MAX_SIZE = 100 := rfl
      rw [hval] at h100 ⊢
      simp only [List.length_cons, List.length_cons] at h100 ⊢
      split_ifs <;> omega
    · have hlt : m.length < DISCOVERY_CACHE_MAX_SIZE := Nat.lt_of_not_le hcap
      have hm'_eq : cacheSet 0 k () m = m ++ [(k, ⟨(), 0⟩)] := by
        unfold cacheSet
        rw [if_neg hcap]
        exact mapSet_of_fresh m k ⟨(), 0⟩ hk_fresh
      have hlen' : (cacheSet 0 k () m).length = m.length + 1 := by
        rw [hm'_eq]
        simp
      have hm'ne : ∀ q ∈ cacheSet 0 k () m, q.1 ≠ "" := by
        intro q hq
        rw [hm'_eq] at hq
        rcases List.mem_append.mp hq with h | h
        · exact hmne q h
        · simp only [List.mem_singleton] at h
          rw [h]
          exact hk_ne
      have hfresh' : ∀ k' ∈ ks, k' ∉ keysOf (cacheSet 0 k () m) := by
        intro k' hk' hcon
        rw [hm'_eq, keysOf_append] at hcon
        rcases List.mem_append.mp hcon with h | h
        · exact hfresh k' (List.mem_cons_of_mem _ hk') h
        · have hkk : k' = k := by simpa [keysOf] using h
          exact hk_notin (hkk ▸ hk')
      have hres := ih (cacheSet 0 k () m) hnd' hne' hm'ne hfresh' (by omega)
      rw [hstep, hres, hlen']
      have hval : DISCOVERY_CACHE_MAX_SIZE = 100 := rfl
      rw [hval] at hlt ⊢
      simp only [List.length_cons]
      split_ifs <;> omega

/-! ## Claim theorems -/

/-- C1 (counterexample): the claim that operators against the `unknown` type
family are permitted optimistically fails on the code. The raw type
`"weird"` classifies as `unknown`, yet a filter using `eq` on such a column
produces exactly an operator-incompatibility `config` error. -/
theorem C1_counterexample :
    getColumnTypeFamily "weird" = ColumnTypeFamily.unknown ∧
    validateFilters [⟨"c", .eq, .vstr "x"⟩]
        [⟨"c", "weird", false, none, none, none, none⟩]
      = [⟨.config, "Operator \"eq\" is not compatible with column type \"weird\""⟩] :=
  ⟨rfl, rfl⟩

/-- C1 (amended): no operator's compatibility list contains `unknown`, so
preflight validation of any filter on a column whose raw type classifies to
the `unknown` family always produces the operator-incompatibility `config`
error (the optimistic treatment of `unknown` exists only in the value
check, not the operator check). -/
theorem C1_unknown_family_rejects_operators :
    (∀ (op : FilterOperator) (t : String),
      getColumnTypeFamily t = ColumnTypeFamily.unknown →
      isOperatorCompatibleWithType op t = false) ∧
    (∀ (fs : List FilterSpec) (f : FilterSpec) (cols : List ColumnMetadata)
        (col : ColumnMetadata), f ∈ fs → columnMapGet cols f.column = some col →
      getColumnTypeFamily col.data_type = ColumnTypeFamily.unknown →
      opIncompatError f.operator col.data_type ∈ validateFilters fs cols) := by
  have hop : ∀ (op : FilterOperator) (t : String),
      getColumnTypeFamily t = ColumnTypeFamily.unknown →
      isOperatorCompatibleWithType op t = false := by
    intro op t ht
    unfold isOperatorCompatibleWithType
    rw [ht]
    cases op <;> rfl
  refine ⟨hop, ?_⟩
  intro fs
  induction fs with
  | nil =>
    intro f cols col hf
    simp at hf
  | cons g gs ih =>
    intro f cols col hf hlook hunk
    rcases List.mem_cons.mp hf with rfl | hf'
    · show opIncompatError f.operator col.data_type
        ∈ filterErrors cols f ++ validateFilters gs cols
      apply List.mem_append.mpr
      left
      simp [filterErrors, hlook, hop f.operator col.data_type hunk]
    · exact List.mem_append.mpr (Or.inr (ih f cols col hf' hlook hunk))

/-- C1 (witness for the amended theorem): a `like` filter against a column
of raw type `"weird"` is rejected with the operator-incompatibility error. -/
theorem C1_witness :
    opIncompatError FilterOperator.like "weird"
      ∈ validateFilters [⟨"c", .like, .vstr "x"⟩]
          [⟨"c", "weird", false, none, none, none, none⟩] :=
  C1_unknown_family_rejects_operators.2 [⟨"c", .like, .vstr "x"⟩]
    ⟨"c", .like, .vstr "x"⟩ [⟨"c", "weird", false, none, none, none, none⟩]
    ⟨"c", "weird", false, none, none, none, none⟩
    (List.mem_singleton.mpr rfl) rfl rfl

/-- Definitional reduction of `validateQueryConfig` on the `rest` branch. -/
theorem validateQueryConfig_rest (discover : Discover) (context : PreflightContext)
    (c : RestQueryConfig) :
    validateQueryConfig discover (.rest c) context =
      match discover c.«from» context.schemaName with
      | .failure e =>
        .failure ⟨e.etype, "Failed to discover table metadata: " ++ e.message⟩
      | .success metadata =>
        match validateRestErrors c context.mode metadata with
        | [] => .success (.meta metadata)
        | e :: _ => .failure e := rfl

/-- C2: for a structured query whose metadata discovery succeeds,
`validateQueryConfig` succeeds exactly when every check group is empty, and
on failure the returned error is exactly the head of the concatenation of
the group error lists in the fixed order: projection, filters, order-by,
pagination, policy. -/
theorem C2_rest_accumulates_first_error (discover : Discover)
    (context : PreflightContext) (c : RestQueryConfig) (m : TableMetadata)
    (h : discover c.«from» context.schemaName = .success m) :
    (validateQueryConfig discover (.rest c) context = .success (.meta m) ↔
      restSelectErrors c m ++ restFilterErrors c m ++ restOrderErrors c m ++
        restPaginationErrors c context.mode ++ restPolicyErrors c m = []) ∧
    (∀ e, validateQueryConfig discover (.rest c) context = .failure e ↔
      (restSelectErrors c m ++ restFilterErrors c m ++ restOrderErrors c m ++
        restPaginationErrors c context.mode ++ restPolicyErrors c m).head?
        = some e) := by
  have hbody : validateQueryConfig discover (.rest c) context =
      match validateRestErrors c context.mode m with
      | [] => .success (.meta m)
      | e :: _ => .failure e := by
    rw [validateQueryConfig_rest, h]
  have hcat : restSelectErrors c m ++ restFilterErrors c m ++ restOrderErrors c m ++
      restPaginationErrors c context.mode ++ restPolicyErrors c m
      = validateRestErrors c context.mode m := rfl
  rw [hcat]
  cases hE : validateRestErrors c context.mode m with
  | nil =>
    rw [hE] at hbody
    constructor
    · simp [hbody]
    · intro e
      simp [hbody]
  | cons e0 rest =>
    rw [hE] at hbody
    constructor
    · simp [hbody]
    · intro e
      simp [hbody, eq_comm]

/-- C2 (witness): the equivalence instantiated at a concrete query against
concrete discovered metadata. -/
theorem C2_witness :
    validateQueryConfig (constDiscover ordersMeta) (.rest ordersQuery) ⟨.normal, none⟩
        = .success (.meta ordersMeta) ↔
      restSelectErrors ordersQuery ordersMeta ++ restFilterErrors ordersQuery ordersMeta ++
        restOrderErrors ordersQuery ordersMeta ++ restPaginationErrors ordersQuery .normal ++
        restPolicyErrors ordersQuery ordersMeta = [] :=
  (C2_rest_accumulates_first_error (constDiscover ordersMeta) ⟨.normal, none⟩
    ordersQuery ordersMeta rfl).1

/-- C3: with a defined requested limit, `validatePagination` emits a
`config` error whenever the limit exceeds the mode cap (20 in preview, 500
in normal) — even though clamping alone would reduce it to the cap — and
whenever the limit is below 1; a defined negative offset also yields a
`config` error. -/
theorem C3_pagination_strict_config_errors (mode : QueryExecutionMode)
    (limit offset : Option Int) :
    (∀ l, limit = some l → modeMaxLimit mode < l →
      limitExceedsError l mode ∈ validatePagination limit offset mode ∧
      (limitExceedsError l mode).etype = .config ∧
      clampLimit limit mode = modeMaxLimit mode) ∧
    (∀ l, limit = some l → l < 1 →
      (⟨.config, "Limit must be at least 1"⟩ : ValidationError)
        ∈ validatePagination limit offset mode) ∧
    (∀ o, offset = some o → o < 0 →
      (⟨.config, "Offset must be non-negative"⟩ : ValidationError)
        ∈ validatePagination limit offset mode) ∧
    modeMaxLimit .preview = 20 ∧ modeMaxLimit .normal = 500 := by
  refine ⟨?_, ?_, ?_, rfl, rfl⟩
  · rintro l rfl hl
    refine ⟨?_, rfl, ?_⟩
    · unfold validatePagination
      apply List.mem_append.mpr
      left
      apply List.mem_append.mpr
      left
      rw [if_pos hl]
      exact List.mem_singleton.mpr rfl
    · cases mode <;>
        (simp only [clampLimit, modeMaxLimit, QUERY_PREVIEW_LIMIT, QUERY_MAX_LIMIT,
          QUERY_DEFAULT_LIMIT] at hl ⊢) <;>
        (split_ifs <;> omega)
  · rintro l rfl hl
    unfold validatePagination
    apply List.mem_append.mpr
    left
    apply List.mem_append.mpr
    right
    rw [if_pos hl]
    exact List.mem_singleton.mpr rfl
  · rintro o rfl ho
    unfold validatePagination
    apply List.mem_append.mpr
    right
    simp [ho]

/-- C3 (witness): limit 9999 under preview mode is a config error even
though clamping maps it to 20, and offset -1 is a config error. -/
theorem C3_witness :
    limitExceedsError 9999 .preview
        ∈ validatePagination (some 9999) (some (-1)) .preview ∧
    (⟨.config, "Offset must be non-negative"⟩ : ValidationError)
        ∈ validatePagination (some 9999) (some (-1)) .preview ∧
    clampLimit (some 9999) .preview = modeMaxLimit .preview := by
  have h := C3_pagination_strict_config_errors .preview (some 9999) (some (-1))
  exact ⟨(h.1 9999 rfl (by decide)).1, h.2.2.1 (-1) rfl (by decide),
    (h.1 9999 rfl (by decide)).2.2⟩

/-- C4: for a raw (`sql`) query, validation is independent of the discovery
oracle (no metadata discovery happens), returns the first accumulated error
of `validateSqlQuery` or the empty metadata marker on success; a statement
whose trimmed lower-cased text does not begin with `select` contributes the
SELECT-only `config` error, and each forbidden keyword occurring as a
substring contributes its own `config` error. -/
theorem C4_sql_validation (discover discover' : Discover)
    (context : PreflightContext) (c : SqlQueryConfig) :
    validateQueryConfig discover (.sql c) context
        = validateQueryConfig discover' (.sql c) context ∧
    validateQueryConfig discover (.sql c) context
        = (match validateSqlQuery c context.mode with
           | [] => .success .empty
           | e :: _ => .failure e) ∧
    (strStarts (strLower (strTrim c.rawSql)) "select" = false →
      (⟨.config, "SQL queries must be SELECT-only"⟩ : ValidationError)
        ∈ validateSqlQuery c context.mode) ∧
    (∀ kw ∈ dangerousKeywords, strHas (strLower (strTrim c.rawSql)) kw = true →
      forbiddenKeywordError kw ∈ validateSqlQuery c context.mode) ∧
    (∀ kw, (forbiddenKeywordError kw).etype = .config) := by
  refine ⟨rfl, rfl, ?_, ?_, fun _ => rfl⟩
  · intro h
    unfold validateSqlQuery
    apply List.mem_append.mpr
    left
    apply List.mem_append.mpr
    left
    rw [h]
    exact List.mem_singleton.mpr rfl
  · intro kw hkw hhas
    unfold validateSqlQuery
    apply List.mem_append.mpr
    left
    apply List.mem_append.mpr
    right
    apply List.mem_flatMap.mpr
    refine ⟨kw, hkw, ?_⟩
    rw [hhas]
    exact List.mem_singleton.mpr rfl

/-- C4 (witness): the scenario-C raw query contains `drop`, producing the
forbidden-keyword error. -/
theorem C4_witness :
    forbiddenKeywordError "drop" ∈ validateSqlQuery sqlDropQuery .normal :=
  (C4_sql_validation (constDiscover ordersMeta) (constDiscover ordersMeta)
    ⟨.normal, none⟩ sqlDropQuery).2.2.2.1 "drop" (by decide) rfl

/-- C5: when preflight validation fails, `QueryRunner.execute` returns null
data together with the normalized error carrying the validation error's
taxonomy tag (as hint, and upper-cased as code), for every choice of REST
and SQL execution source — i.e. no backend call is made. -/
theorem C5_runner_short_circuit (discover : Discover) (config : LooseConfig)
    (mode : QueryExecutionMode) (e : ValidationError)
    (h : validateQueryConfig discover config ⟨mode, none⟩ = .failure e) :
    ∀ (restExec : RestExec) (sqlExec : SqlExec),
      QueryRunner.execute discover restExec sqlExec config mode =
        ⟨none, some ⟨e.message, none, some e.etype.tag, strUpper e.etype.tag⟩⟩ := by
  intro restExec sqlExec
  unfold QueryRunner.execute
  rw [h]
  rfl

/-- C5 (witness): a rejected config short-circuits the runner with the
`config` taxonomy tag, regardless of the (constant) executors. -/
theorem C5_witness :
    QueryRunner.execute (constDiscover ordersMeta) (fun _ _ => noRows)
        (fun _ _ => noRows) .notObject .normal =
      ⟨none, some ⟨"QueryConfig must be a valid object", none, some "config", "CONFIG"⟩⟩ :=
  C5_runner_short_circuit (constDiscover ordersMeta) .notObject .normal
    ⟨.config, "QueryConfig must be a valid object"⟩ rfl
    (fun _ _ => noRows) (fun _ _ => noRows)

/-- C6: for a table name failing the allow-list pattern, discovery returns
the `config` error immediately with the cache unchanged, for every backend
fetcher, cache state and clock — i.e. neither the cache nor the backend is
consulted. (`isTableAllowed` is pure by construction: a function of the
name alone.) -/
theorem C6_disallowed_table_short_circuits (tableName : String)
    (h : isTableAllowed tableName = false) :
    ∀ (b : BackendFetches) (cache : CacheMap TableMetadata) (now : Nat)
      (schemaName : String),
      discoverTableMetadata b cache now tableName schemaName =
        (.failure ⟨.config, "Table name \x27" ++ tableName ++ "\x27 is not allowed"⟩,
          cache) := by
  intro b cache now schemaName
  unfold discoverTableMetadata
  rw [h]
  rfl

/-- C6 (witness): `"bad name"` fails the pattern and short-circuits. -/
theorem C6_witness :
    discoverTableMetadata trivialFetches [] 0 "bad name" "public" =
      (.failure ⟨.config, "Table name \x27bad name\x27 is not allowed"⟩, []) :=
  C6_disallowed_table_short_circuits "bad name" rfl trivialFetches [] 0 "public"

/-- C7: a structured query whose discovered metadata has row security
enabled with an empty policy list, and which passes the projection, filter,
order-by and pagination groups, fails with the `permission` error whose
message names the target object. -/
theorem C7_rls_without_policies_permission_error (discover : Discover)
    (context : PreflightContext) (c : RestQueryConfig) (m : TableMetadata)
    (hd : discover c.«from» context.schemaName = .success m)
    (hrls : m.has_rls_enabled = true) (hpol : m.policies = [])
    (h1 : restSelectErrors c m = []) (h2 : restFilterErrors c m = [])
    (h3 : restOrderErrors c m = []) (h4 : restPaginationErrors c context.mode = []) :
    validateQueryConfig discover (.rest c) context
        = .failure (rlsPermissionError c.«from») ∧
    (rlsPermissionError c.«from»).etype = .permission ∧
    strHas (rlsPermissionError c.«from»).message c.«from» = true := by
  refine ⟨?_, rfl, ?_⟩
  · rw [validateQueryConfig_rest, hd]
    have hE : validateRestErrors c context.mode m = [rlsPermissionError c.«from»] := by
      unfold validateRestErrors
      rw [h1, h2, h3, h4]
      unfold restPolicyErrors
      rw [hrls, hpol]
      rfl
    show (match validateRestErrors c context.mode m with
        | [] => DiscoveryResult.success (ValidatedMeta.meta m)
        | e :: _ => DiscoveryResult.failure e)
      = DiscoveryResult.failure (rlsPermissionError c.«from»)
    rw [hE]
  · show strHas ("Table \"" ++ c.«from» ++ "\" has RLS enabled but no policies defined")
      c.«from» = true
    rw [String.append_assoc]
    exact strHas_mid "Table \"" c.«from» "\" has RLS enabled but no policies defined"

/-- C7 (witness): scenario D at concrete inputs — `orders` with RLS enabled
and no policies fails with the permission error naming `orders`. -/
theorem C7_witness :
    validateQueryConfig (constDiscover ordersRlsMeta) (.rest ordersQuery)
        ⟨.normal, none⟩ = .failure (rlsPermissionError "orders") :=
  (C7_rls_without_policies_permission_error (constDiscover ordersRlsMeta)
    ⟨.normal, none⟩ ordersQuery ordersRlsMeta rfl rfl rfl rfl rfl rfl rfl).1

/-- C8: `set(k, v)` followed by `get(k)` within the TTL (5 minutes in
milliseconds) returns `v` with the cache unchanged; once strictly more than
the TTL has elapsed since the entry's timestamp, `get(k)` reports absence
and deletes the entry at read time. -/
theorem C8_cache_ttl {α : Type} (m : CacheMap α) (k : String) (v : α)
    (t₁ t₂ : Nat) :
    (t₂ - t₁ ≤ DISCOVERY_CACHE_TTL_MS →
      cacheGet t₂ k (cacheSet t₁ k v m) = (some v, cacheSet t₁ k v m)) ∧
    (DISCOVERY_CACHE_TTL_MS < t₂ - t₁ →
      cacheGet t₂ k (cacheSet t₁ k v m) = (none, mapErase (cacheSet t₁ k v m) k)) := by
  have hlook : mapLookup (cacheSet t₁ k v m) k = some ⟨v, t₁⟩ := by
    unfold cacheSet
    exact mapLookup_mapSet_self _ _ _
  constructor
  · intro h
    unfold cacheGet
    rw [hlook]
    simp only
    rw [if_neg (by omega)]
  · intro h
    unfold cacheGet
    rw [hlook]
    simp only
    rw [if_pos (by omega)]

/-- C8 (witness): concrete set/get before and after TTL expiry. -/
theorem C8_witness :
    cacheGet 1000 "k" (cacheSet 0 "k" 42 ([] : CacheMap Nat))
        = (some 42, cacheSet 0 "k" 42 ([] : CacheMap Nat)) ∧
    cacheGet 300001 "k" (cacheSet 0 "k" 42 ([] : CacheMap Nat))
        = (none, mapErase (cacheSet 0 "k" 42 ([] : CacheMap Nat)) "k") :=
  ⟨(C8_cache_ttl ([] : CacheMap Nat) "k" 42 0 1000).1 (by decide),
   (C8_cache_ttl ([] : CacheMap Nat) "k" 42 0 300001).2 (by decide)⟩

/-- C9 (counterexample): the capacity invariant fails as stated. The
eviction step `if (oldestKey) this.cache.delete(oldestKey)` skips deletion
when the oldest key is the empty string (falsy in JavaScript), so inserting
the 101 distinct keys `c9Keys` (first key `""`) leaves 101 entries, not
100. -/
theorem C9_counterexample :
    c9Keys.Nodup ∧ DISCOVERY_CACHE_MAX_SIZE < c9Keys.length ∧
    (insertKeys c9Keys []).length ≠ DISCOVERY_CACHE_MAX_SIZE := by
  refine ⟨by decide, by decide, ?_⟩
  rw [show (insertKeys c9Keys []).length = 101 from rfl]
  decide

/-- C9 (amended): restricted to nonempty keys the claim holds — inserting
more than 100 distinct nonempty keys into the empty cache leaves exactly
100 entries, and whenever a set happens at capacity over entries with
nonempty keys, it evicts exactly the single oldest-inserted entry (the head
of the insertion-ordered map — FIFO, not access order). -/
theorem C9_fifo_capacity :
    (∀ (ks : List String), ks.Nodup → (∀ k ∈ ks, k ≠ "") →
      DISCOVERY_CACHE_MAX_SIZE < ks.length →
      (insertKeys ks ([] : CacheMap Unit)).length = DISCOVERY_CACHE_MAX_SIZE) ∧
    (∀ (α : Type) (m : CacheMap α) (k : String) (v : α) (now : Nat),
      DISCOVERY_CACHE_MAX_SIZE ≤ m.length → (∀ p ∈ m, p.1 ≠ "") →
      cacheSet now k v m = mapSet (m.drop 1) k ⟨v, now⟩) := by
  constructor
  · intro ks hnd hne hlen
    have h := insertKeys_length ks [] hnd hne (by simp) (by simp [keysOf])
      (by simp [DISCOVERY_CACHE_MAX_SIZE])
    rw [h]
    rw [if_neg (by simpa using Nat.not_le_of_lt hlen)]
  · intro α m k v now hcap hne
    obtain ⟨p, rest, rfl⟩ : ∃ p rest, m = p :: rest := by
      cases m with
      | nil => simp [DISCOVERY_CACHE_MAX_SIZE] at hcap
      | cons p rest => exact ⟨p, rest, rfl⟩
    obtain ⟨kp, ep⟩ := p
    have hkp : kp ≠ "" := hne (kp, ep) (List.mem_cons_self _ _)
    unfold cacheSet
    rw [if_pos hcap, cacheEvict_cons kp ep rest hkp]
    rfl

/-- C9 (witness for the amended theorem): 101 distinct nonempty keys leave
exactly 100 entries. -/
theorem C9_fifo_capacity_witness :
    (insertKeys c9KeysNE ([] : CacheMap Unit)).length = DISCOVERY_CACHE_MAX_SIZE :=
  C9_fifo_capacity.1 c9KeysNE (by decide) (by decide) (by decide)

/-- C10: `validateQueryConfig` is total at its public boundary: a non-object
input and an untagged/mistagged object are rejected with the respective
`config` errors; any exception thrown by the body is caught and surfaced as
a `transport` error with message "Unexpected error during validation"; and
every input produces a `ValidationResult`. -/
theorem C10_validation_total_catch (discover : Discover)
    (context : PreflightContext) :
    validateQueryConfig discover .notObject context
        = .failure ⟨.config, "QueryConfig must be a valid object"⟩ ∧
    (∀ kind, validateQueryConfig discover (.badKind kind) context
        = .failure ⟨.config,
            "QueryConfig must have a valid kind (\x27rest\x27 or \x27sql\x27)"⟩) ∧
    (∀ (config : LooseConfig) (exn : String),
      validateBody discover config context = .error exn →
      validateQueryConfig discover config context
        = .failure ⟨.transport, "Unexpected error during validation"⟩) ∧
    (∀ config : LooseConfig, ∃ r : ValidationResult ValidatedMeta,
      validateQueryConfig discover config context = r) := by
  refine ⟨rfl, fun _ => rfl, ?_, fun config => ⟨_, rfl⟩⟩
  intro config exn h
  unfold validateQueryConfig
  rw [h]

/-- C10 (witness): the throwing input (`kind: "sql"` with `rawSql`
undefined) is caught and classified `transport`. -/
theorem C10_witness :
    validateQueryConfig (constDiscover ordersMeta) (.sqlMissingRaw none none)
        ⟨.normal, none⟩
      = .failure ⟨.transport, "Unexpected error during validation"⟩ :=
  (C10_validation_total_catch (constDiscover ordersMeta) ⟨.normal, none⟩).2.2.1
    (.sqlMissingRaw none none)
    "TypeError: Cannot read properties of undefined (reading trim)" rfl
